import Mathlib

/-!
Shallow embedding of the gboot firmware sender.

The sender reads a firmware image from disk, computes its IEEE CRC-32 by
streaming the file again in 256-byte blocks, connects to a TCP server with
an unbounded 3-second-backoff retry loop, writes a 4-byte big-endian size
header, writes the image in chunks of at most 256 bytes awaiting the ASCII
token ACK after each chunk, writes the CRC as 4 big-endian bytes and waits
for the ASCII token CRC_OK.

Machine integers are modelled as Nat; every CRC value stays below 2 ^ 32
because the update only shifts right and xors 32-bit constants.  Effects
are modelled by an explicit environment (results of the two file reads,
number of failed dial attempts before the first success, transport-level
success of each socket write, and the byte sequences the peer returns to
each blocking read) and the engine is a pure function from that
environment to the list of externally visible events plus a final outcome.
-/

namespace GBoot

/-- Chunk cap used both for file streaming and network chunking
(constant BUFFER_SIZE = 256 in the source). -/
def BUFFER_SIZE : Nat := 256

/-- Byte values of the ASCII acknowledgment token "ACK"
(constant ACK_MSG in the source; bytes 65 67 75). -/
def ACK_MSG : List Nat := [65, 67, 75]

/-- Byte values of the ASCII verification token "CRC_OK"
(constant CRC_OK_MSG in the source; bytes 67 82 67 95 79 75). -/
def CRC_OK_MSG : List Nat := [67, 82, 67, 95, 79, 75]

/-- One shift-and-conditionally-xor round of the reflected IEEE CRC-32
with polynomial 0xEDB88320, the bit-level computation behind the table
used by crc32.NewIEEE. -/
def crc32Round (crc : Nat) : Nat :=
  if crc % 2 = 1 then (crc / 2) ^^^ 0xEDB88320 else crc / 2

/-- Iterate crc32Round a given number of times. -/
def crc32Rounds : Nat → Nat → Nat
  | 0, crc => crc
  | n + 1, crc => crc32Rounds n (crc32Round crc)

/-- Absorb one byte into the raw CRC-32 accumulator (eight rounds on the
accumulator xored with the byte). -/
def crc32Byte (crc b : Nat) : Nat := crc32Rounds 8 (crc ^^^ b)

/-- Absorb a byte sequence into the raw accumulator; this models one
hash.Write call of the streaming digest. -/
def crc32Update (crc : Nat) (bytes : List Nat) : Nat := bytes.foldl crc32Byte crc

/-- Reference IEEE CRC-32 of a whole byte sequence: raw accumulator
initialised to 0xFFFFFFFF, folded over all bytes at once, complemented
at the end.  This is the specification-side definition the streaming
implementation is compared against. -/
def crc32IEEE (bytes : List Nat) : Nat := crc32Update 0xFFFFFFFF bytes ^^^ 0xFFFFFFFF

/-- Fuel-indexed form of the chunking loop of the source,
for i := 0; i < len(data); i += BUFFER_SIZE with chunk = data[i:end] and
end = min (i + BUFFER_SIZE) (len data).  The first argument is fuel that
only forces structural termination; any fuel with
data.length - i <= BUFFER_SIZE * fuel reproduces the loop exactly. -/
def chunksFromFuel : Nat → List Nat → Nat → List (List Nat)
  | 0, _, _ => []
  | fuel + 1, data, i =>
    if i < data.length then
      ((data.drop i).take BUFFER_SIZE) :: chunksFromFuel fuel data (i + BUFFER_SIZE)
    else []

/-- Chunks of a firmware image in emission order, as produced by the chunk
loop of sendFirmware starting at offset 0. -/
def chunksOf (data : List Nat) : List (List Nat) := chunksFromFuel data.length data 0

/-- Big-endian 4-byte encoding of a natural number, as produced by
binary.BigEndian.PutUint32 after the uint32 conversion (hence the
implicit truncation modulo 2 ^ 32). -/
def be4 (n : Nat) : List Nat :=
  [n / 16777216 % 256, n / 65536 % 256, n / 256 % 256, n % 256]

/-- Big-endian decoding of a byte list, used to state what be4 encodes. -/
def be4Decode (l : List Nat) : Nat := l.foldl (fun a b => 256 * a + b) 0

/-- Model of calculateCRC32 on the byte content its reads observe: the file
is streamed through the running accumulator in blocks of at most
BUFFER_SIZE bytes (file.Read with a 256-byte buffer) and the final digest
is returned.  The error paths of the source (open failure, mid-stream read
error) are modelled at the call site in sendFirmware by an absent content. -/
def calculateCRC32 (content : List Nat) : Nat :=
  ((chunksOf content).foldl crc32Update 0xFFFFFFFF) ^^^ 0xFFFFFFFF

/-- Externally visible events of one sendFirmware run, in order: failed and
successful dial attempts, the fixed sleeps between them, socket writes with
their payload bytes, the blocking 3-byte ACK reads and the blocking 6-byte
verification read with the bytes the peer returned (none models a read
error), and the closing of the connection. -/
inductive Event where
  | dialFail
  | sleepSeconds (n : Nat)
  | dialOk
  | write (payload : List Nat)
  | readAck (response : Option (List Nat))
  | readCrcResp (response : Option (List Nat))
  | close
deriving DecidableEq, Repr

/-- Final outcome reported by sendFirmware, one per console report of the
source: file-read failure, checksum-computation failure, transmission
failure on a bad or missing ACK, checksum-verification failure, and full
success. -/
inductive Outcome where
  | fileNotFound
  | crcError
  | transmissionFailed
  | crcVerifyFailed
  | success
deriving DecidableEq, Repr

/-- Environment a run interacts with: result of os.ReadFile on the
firmware path, content observed by the second, independent read that
calculateCRC32 performs on the same path (none models an open or read
error), how many dial attempts fail before the first success, the
transport-level success of each socket write (present because conn.Write
returns an error value the source discards), the peer response to each
3-byte ACK read, and the peer response to the final 6-byte read.  A read
for which the response script is exhausted is modelled as a read error. -/
structure Env where
  readFileResult : Option (List Nat)
  crcReadResult : Option (List Nat)
  dialFailures : Nat
  writeOk : List Bool
  ackResponses : List (Option (List Nat))
  crcResponse : Option (List Nat)
deriving DecidableEq, Repr

/-- Events of the connect-with-retry loop when the first n dial attempts
fail and attempt n + 1 succeeds: each failure is followed by the fixed
3-second sleep, then the successful attempt. -/
def connectEvents : Nat → List Event
  | 0 => [Event.dialOk]
  | n + 1 => Event.dialFail :: Event.sleepSeconds 3 :: connectEvents n

/-- Chunk loop of sendFirmware over the already-computed chunk list: write
the chunk, block reading len("ACK") bytes, and stop immediately (returning
false) when the read errors or the bytes differ from the token; otherwise
continue.  The returned Bool tells whether every chunk was acknowledged. -/
def ackLoop : List (List Nat) → List (Option (List Nat)) → List Event × Bool
  | [], _ => ([], true)
  | chunk :: _, [] => ([Event.write chunk, Event.readAck none], false)
  | chunk :: rest, a :: moreAcks =>
    if a = some ACK_MSG then
      let r := ackLoop rest moreAcks
      (Event.write chunk :: Event.readAck a :: r.1, r.2)
    else ([Event.write chunk, Event.readAck a], false)

/-- Model of sendFirmware: read the file (abort with no events on
failure), compute the CRC by a second read of the path (abort with no
events on failure), connect with unbounded retry, write the 4-byte
big-endian size header, run the chunk loop, and on full acknowledgment
write the 4-byte big-endian CRC and block reading len("CRC_OK") bytes,
classifying the response; the deferred close ends every post-connect
path. -/
def sendFirmware (env : Env) : List Event × Outcome :=
  match env.readFileResult with
  | none => ([], Outcome.fileNotFound)
  | some firmwareData =>
    match env.crcReadResult with
    | none => ([], Outcome.crcError)
    | some crcContent =>
      let firmwareCRC32 := calculateCRC32 crcContent
      let header := be4 firmwareData.length
      let loop := ackLoop (chunksOf firmwareData) env.ackResponses
      if loop.2 then
        (connectEvents env.dialFailures
            ++ Event.write header :: loop.1
            ++ [Event.write (be4 firmwareCRC32), Event.readCrcResp env.crcResponse,
                Event.close],
         if env.crcResponse = some CRC_OK_MSG then Outcome.success
         else Outcome.crcVerifyFailed)
      else
        (connectEvents env.dialFailures ++ Event.write header :: loop.1 ++ [Event.close],
         Outcome.transmissionFailed)

/-- Payloads of the write events of a trace, in order. -/
def writePayloads (t : List Event) : List (List Nat) :=
  t.filterMap (fun e =>
    match e with
    | Event.write p => some p
    | _ => none)

/-- Dial attempts (failed or successful) of a trace. -/
def isDialEvent : Event → Bool
  | Event.dialFail => true
  | Event.dialOk => true
  | _ => false

/-- Splitting a character list at every dot, the unique decomposition the
anchored source regular expression quantifies over (an octet pattern can
never match a dot). -/
def splitDots : List Char → List (List Char)
  | [] => [[]]
  | c :: rest =>
    let r := splitDots rest
    if c = '.' then [] :: r else (c :: r.headI) :: r.tail

/-- Decimal digit test, character class [0-9] of the source regular
expression. -/
def isDigitChar (c : Char) : Bool := decide (48 ≤ c.toNat) && decide (c.toNat ≤ 57)

/-- Matcher for the octet alternation of the source regular expression,
25[0-5] or 2[0-4][0-9] or [01]?[0-9][0-9]?, spelled out by the length of
the candidate: one character must be a digit; two characters are [01][0-9]
or [0-9][0-9], which collapse to two digits; three characters are exactly
the three alternatives. -/
def matchOctet : List Char → Bool
  | [a] => isDigitChar a
  | [a, b] => isDigitChar a && isDigitChar b
  | [a, b, c] =>
    (a == '2' && b == '5' && decide (48 ≤ c.toNat) && decide (c.toNat ≤ 53))
    || (a == '2' && decide (48 ≤ b.toNat) && decide (b.toNat ≤ 52) && isDigitChar c)
    || ((a == '0' || a == '1') && isDigitChar b && isDigitChar c)
  | _ => false

/-- Model of isValidIP: the anchored regular expression
((25[0-5]|2[0-4][0-9]|[01]?[0-9][0-9]?)\.){3}(25[0-5]|2[0-4][0-9]|[01]?[0-9][0-9]?)
matches a string exactly when splitting it at dots yields four parts that
each match the octet alternation. -/
def isValidIP (ip : String) : Bool :=
  let parts := splitDots ip.toList
  parts.length == 4 && parts.all matchOctet

/-- Result of the CLI collaborator: usage text with non-zero exit, version
string printed, invalid-address rejection with non-zero exit, or the
transfer core invoked with the validated arguments.  Checksum computation
and every network operation live inside the core, so only the last
constructor can reach them. -/
inductive CLIResult where
  | usageExit
  | versionPrinted
  | invalidIPExit
  | transferInvoked (firmwareFile serverIP : String)
deriving DecidableEq, Repr

/-- Model of main of the two-argument variant: args is the full argument
vector including the program name, mirroring os.Args. -/
def mainModel (args : List String) : CLIResult :=
  if args.length < 2 then CLIResult.usageExit
  else if args.getD 1 "" = "version" ∨ args.getD 1 "" = "-v" then CLIResult.versionPrinted
  else if args.length < 3 then CLIResult.usageExit
  else if isValidIP (args.getD 2 "") then
    CLIResult.transferInvoked (args.getD 1 "") (args.getD 2 "")
  else CLIResult.invalidIPExit

/-- Write event followed by a successful ACK read, the event pair of one
fully acknowledged chunk. -/
def pairOk (chunk : List Nat) : List Event :=
  [Event.write chunk, Event.readAck (some ACK_MSG)]

/-! Helper lemmas about the CRC accumulator. -/

theorem crc32Update_append (s : Nat) (a b : List Nat) :
    crc32Update s (a ++ b) = crc32Update (crc32Update s a) b := by
  simp [crc32Update, List.foldl_append]

theorem foldl_crc32Update_flatten (parts : List (List Nat)) :
    ∀ s : Nat, parts.foldl crc32Update s = crc32Update s parts.flatten := by
  induction parts with
  | nil => intro s; simp [crc32Update]
  | cons p rest ih =>
    intro s
    simp only [List.foldl_cons, List.flatten_cons, crc32Update_append]
    exact ih (crc32Update s p)

/-! Helper lemmas about the chunking loop. -/

theorem chunksFromFuel_flatten (fuel : Nat) :
    ∀ (data : List Nat) (i : Nat), data.length - i ≤ BUFFER_SIZE * fuel →
      (chunksFromFuel fuel data i).flatten = data.drop i := by
  induction fuel with
  | zero =>
    intro data i h
    have hle : data.length ≤ i := by simp [BUFFER_SIZE] at h; omega
    simp [chunksFromFuel, List.drop_eq_nil_of_le hle]
  | succ fuel ih =>
    intro data i h
    simp only [chunksFromFuel]
    split
    · rename_i hlt
      rw [List.flatten_cons, ih data (i + BUFFER_SIZE) (by simp [BUFFER_SIZE] at h ⊢; omega)]
      have hdd : data.drop (i + BUFFER_SIZE) = (data.drop i).drop BUFFER_SIZE := by
        rw [List.drop_drop]
      rw [hdd, List.take_append_drop]
    · rename_i hge
      have hle : data.length ≤ i := by omega
      simp [List.drop_eq_nil_of_le hle]

theorem chunksFromFuel_length (fuel : Nat) :
    ∀ (data : List Nat) (i : Nat), data.length - i ≤ BUFFER_SIZE * fuel →
      (chunksFromFuel fuel data i).length = (data.length - i + 255) / 256 := by
  induction fuel with
  | zero =>
    intro data i h
    have hle : data.length ≤ i := by simp [BUFFER_SIZE] at h; omega
    simp only [chunksFromFuel, List.length_nil]
    omega
  | succ fuel ih =>
    intro data i h
    simp only [chunksFromFuel]
    split
    · rename_i hlt
      rw [List.length_cons, ih data (i + BUFFER_SIZE) (by simp [BUFFER_SIZE] at h ⊢; omega)]
      simp only [BUFFER_SIZE]
      omega
    · rename_i hge
      simp only [List.length_nil]
      omega

theorem chunksFromFuel_get? (fuel : Nat) :
    ∀ (data : List Nat) (i j : Nat), data.length - i ≤ BUFFER_SIZE * fuel →
      (chunksFromFuel fuel data i).get? j =
        if i + 256 * j < data.length then some ((data.drop (i + 256 * j)).take 256)
        else none := by
  induction fuel with
  | zero =>
    intro data i j h
    have hle : data.length ≤ i := by simp [BUFFER_SIZE] at h; omega
    simp only [chunksFromFuel, List.get?_nil]
    rw [if_neg (by omega)]
  | succ fuel ih =>
    intro data i j h
    simp only [chunksFromFuel]
    split
    · rename_i hlt
      cases j with
      | zero =>
        simp only [List.get?_cons_zero]
        rw [if_pos (by omega)]
        norm_num [BUFFER_SIZE]
      | succ j =>
        simp only [List.get?_cons_succ]
        rw [ih data (i + BUFFER_SIZE) j (by simp [BUFFER_SIZE] at h ⊢; omega)]
        have harith : i + BUFFER_SIZE + 256 * j = i + 256 * (j + 1) := by
          simp [BUFFER_SIZE]; ring
        rw [harith]
    · rename_i hge
      simp only [List.get?_nil]
      rw [if_neg (by omega)]

theorem chunksFromFuel_size (fuel : Nat) :
    ∀ (data : List Nat) (i : Nat) (c : List Nat), c ∈ chunksFromFuel fuel data i →
      c.length ≤ 256 := by
  induction fuel with
  | zero => intro data i c hc; simp [chunksFromFuel] at hc
  | succ fuel ih =>
    intro data i c hc
    simp only [chunksFromFuel] at hc
    split at hc
    · rcases List.mem_cons.mp hc with h | h
      · subst h
        calc ((data.drop i).take BUFFER_SIZE).length ≤ BUFFER_SIZE :=
              (List.length_take _ _).trans_le (min_le_left _ _)
          _ ≤ 256 := by norm_num [BUFFER_SIZE]
      · exact ih data (i + BUFFER_SIZE) c h
    · simp at hc

theorem chunksOf_fuel_enough (data : List Nat) :
    data.length - 0 ≤ BUFFER_SIZE * data.length := by
  simp [BUFFER_SIZE]
  omega

theorem chunksOf_flatten (data : List Nat) : (chunksOf data).flatten = data := by
  simpa using chunksFromFuel_flatten data.length data 0 (chunksOf_fuel_enough data)

theorem chunksOf_length (data : List Nat) :
    (chunksOf data).length = (data.length + 255) / 256 := by
  simpa using chunksFromFuel_length data.length data 0 (chunksOf_fuel_enough data)

theorem chunksOf_get? (data : List Nat) (j : Nat) :
    (chunksOf data).get? j =
      if 256 * j < data.length then some ((data.drop (256 * j)).take 256) else none := by
  simpa using chunksFromFuel_get? data.length data 0 j (chunksOf_fuel_enough data)

theorem chunksOf_size (data : List Nat) (c : List Nat) (hc : c ∈ chunksOf data) :
    c.length ≤ 256 :=
  chunksFromFuel_size data.length data 0 c hc

/-! Helper lemmas about the acknowledgment loop. -/

theorem ackLoop_success (cs : List (List Nat)) :
    ∀ acks : List (Option (List Nat)),
      acks.take cs.length = List.replicate cs.length (some ACK_MSG) →
      ackLoop cs acks = ((cs.map pairOk).flatten, true) := by
  induction cs with
  | nil => intro acks _; simp [ackLoop]
  | cons c rest ih =>
    intro acks hacks
    cases acks with
    | nil =>
      exfalso
      simp [List.replicate_succ] at hacks
    | cons a moreAcks =>
      simp only [List.length_cons, List.take_succ_cons, List.replicate_succ,
        List.cons.injEq] at hacks
      obtain ⟨ha, hrest⟩ := hacks
      simp only [ackLoop, if_pos ha, ih moreAcks hrest, ha]
      simp [pairOk]

theorem ackLoop_fail (K : Nat) :
    ∀ (cs : List (List Nat)) (acks : List (Option (List Nat))),
      K < cs.length →
      acks.take K = List.replicate K (some ACK_MSG) →
      acks.getD K none ≠ some ACK_MSG →
      ackLoop cs acks =
        (((cs.take K).map pairOk).flatten
          ++ [Event.write (cs.getD K []), Event.readAck (acks.getD K none)], false) := by
  induction K with
  | zero =>
    intro cs acks hK _ hbad
    cases cs with
    | nil => simp at hK
    | cons c rest =>
      cases acks with
      | nil => simp [ackLoop]
      | cons a moreAcks =>
        simp only [List.getD, List.get?_cons_zero, Option.getD_some] at hbad
        simp [ackLoop, if_neg hbad]
  | succ K ih =>
    intro cs acks hK hpre hbad
    cases cs with
    | nil => simp at hK
    | cons c rest =>
      cases acks with
      | nil => simp [List.replicate_succ] at hpre
      | cons a moreAcks =>
        simp only [List.take_succ_cons, List.replicate_succ, List.cons.injEq] at hpre
        obtain ⟨ha, hrest⟩ := hpre
        have hK' : K < rest.length := by simp at hK; omega
        have hbad' : moreAcks.getD K none ≠ some ACK_MSG := by
          simpa [List.getD] using hbad
        simp only [ackLoop, if_pos ha, ih rest moreAcks hK' hrest hbad', ha]
        simp [pairOk, List.getD]

theorem ackLoop_cons_shape (chunk : List Nat) (cs : List (List Nat))
    (acks : List (Option (List Nat))) :
    ∃ t, (ackLoop (chunk :: cs) acks).1 = Event.write chunk :: t := by
  cases acks with
  | nil => exact ⟨_, rfl⟩
  | cons a moreAcks =>
    simp only [ackLoop]
    split
    · exact ⟨_, rfl⟩
    · exact ⟨_, rfl⟩

theorem ackLoop_no_dial (cs : List (List Nat)) :
    ∀ acks, ∀ e ∈ (ackLoop cs acks).1, isDialEvent e = false := by
  induction cs with
  | nil => intro acks e he; simp [ackLoop] at he
  | cons c rest ih =>
    intro acks e he
    cases acks with
    | nil =>
      simp only [ackLoop, List.mem_cons, List.not_mem_nil, or_false] at he
      rcases he with h | h <;> simp [h, isDialEvent]
    | cons a moreAcks =>
      simp only [ackLoop] at he
      split at he
      · simp only [List.mem_cons] at he
        rcases he with h | h | h
        · simp [h, isDialEvent]
        · simp [h, isDialEvent]
        · exact ih moreAcks e h
      · simp only [List.mem_cons, List.not_mem_nil, or_false] at he
        rcases he with h | h <;> simp [h, isDialEvent]

/-! Helper lemmas about the connection loop events. -/

theorem connectEvents_eq (n : Nat) :
    connectEvents n =
      (List.replicate n [Event.dialFail, Event.sleepSeconds 3]).flatten
        ++ [Event.dialOk] := by
  induction n with
  | zero => simp [connectEvents]
  | succ n ih => simp [connectEvents, List.replicate_succ, ih]

theorem connectEvents_countP_dial (n : Nat) :
    (connectEvents n).countP (fun e => isDialEvent e) = n + 1 := by
  induction n with
  | zero => simp [connectEvents, List.countP_cons, isDialEvent]
  | succ n ih =>
    simp only [connectEvents, List.countP_cons, ih]
    norm_num [isDialEvent]

/-! Helper lemmas about write payloads of traces. -/

theorem writePayloads_append (s t : List Event) :
    writePayloads (s ++ t) = writePayloads s ++ writePayloads t := by
  simp [writePayloads, List.filterMap_append]

theorem writePayloads_connectEvents (n : Nat) :
    writePayloads (connectEvents n) = [] := by
  induction n with
  | zero => simp [connectEvents, writePayloads]
  | succ n ih =>
    simp only [connectEvents]
    simpa [writePayloads] using ih

theorem writePayloads_pairOk_flatten (cs : List (List Nat)) :
    writePayloads ((cs.map pairOk).flatten) = cs := by
  induction cs with
  | nil => simp [writePayloads]
  | cons c rest ih =>
    simp only [List.map_cons, List.flatten_cons, writePayloads_append, ih]
    simp [pairOk, writePayloads]

/-! Unfolding lemma for the engine once both file reads succeeded. -/

theorem sendFirmware_eq (env : Env) (data c : List Nat)
    (hr : env.readFileResult = some data) (hc : env.crcReadResult = some c) :
    sendFirmware env =
      if (ackLoop (chunksOf data) env.ackResponses).2 then
        (connectEvents env.dialFailures
            ++ Event.write (be4 data.length)
              :: (ackLoop (chunksOf data) env.ackResponses).1
            ++ [Event.write (be4 (calculateCRC32 c)),
                Event.readCrcResp env.crcResponse, Event.close],
         if env.crcResponse = some CRC_OK_MSG then Outcome.success
         else Outcome.crcVerifyFailed)
      else
        (connectEvents env.dialFailures
            ++ Event.write (be4 data.length)
              :: (ackLoop (chunksOf data) env.ackResponses).1
            ++ [Event.close],
         Outcome.transmissionFailed) := by
  simp only [sendFirmware, hr, hc]

theorem writePayloads_cons_write (p : List Nat) (t : List Event) :
    writePayloads (Event.write p :: t) = p :: writePayloads t := by
  simp [writePayloads]

theorem writePayloads_nil : writePayloads [] = [] := rfl

theorem writePayloads_cons_readAck (r : Option (List Nat)) (t : List Event) :
    writePayloads (Event.readAck r :: t) = writePayloads t := by
  simp [writePayloads]

theorem writePayloads_cons_readCrcResp (r : Option (List Nat)) (t : List Event) :
    writePayloads (Event.readCrcResp r :: t) = writePayloads t := by
  simp [writePayloads]

theorem writePayloads_cons_close (t : List Event) :
    writePayloads (Event.close :: t) = writePayloads t := by
  simp [writePayloads]

theorem calculateCRC32_eq (content : List Nat) :
    calculateCRC32 content = crc32IEEE content := by
  rw [calculateCRC32, foldl_crc32Update_flatten, chunksOf_flatten]
  rfl

theorem take_succ_getD (l : List (List Nat)) (K : Nat) (hK : K < l.length) :
    l.take (K + 1) = l.take K ++ [l.getD K []] := by
  rw [List.take_succ, List.getD_eq_getElem l [] hK, List.getElem?_eq_getElem hK]
  rfl

/-! Claims. -/

/-- Claim C1: for an image of size S and chunk cap 256 the chunk loop of
sendFirmware emits exactly ceil(S/256) chunks, each of length at most 256,
chunk j covering offsets 256j onward with no gaps or overlaps, their
concatenation reproduces the image, the loop writes exactly these chunks in
this order, and for S positive the last chunk has length
S - 256 * floor((S-1)/256). -/
theorem claim_C1 (data : List Nat) :
    (chunksOf data).length = (data.length + 255) / 256
  ∧ (∀ c ∈ chunksOf data, c.length ≤ 256)
  ∧ (chunksOf data).flatten = data
  ∧ (∀ j, (chunksOf data).get? j =
      if 256 * j < data.length then some ((data.drop (256 * j)).take 256) else none)
  ∧ (∀ acks, acks.take (chunksOf data).length
        = List.replicate (chunksOf data).length (some ACK_MSG) →
      writePayloads (ackLoop (chunksOf data) acks).1 = chunksOf data)
  ∧ (0 < data.length →
      ∃ c, (chunksOf data).get? ((chunksOf data).length - 1) = some c
        ∧ c.length = data.length - 256 * ((data.length - 1) / 256)) := by
  refine ⟨chunksOf_length data, fun c hc => chunksOf_size data c hc,
    chunksOf_flatten data, chunksOf_get? data, ?_, ?_⟩
  · intro acks hacks
    rw [ackLoop_success (chunksOf data) acks hacks]
    exact writePayloads_pairOk_flatten (chunksOf data)
  · intro hS
    have hj : 256 * ((data.length + 255) / 256 - 1) < data.length := by omega
    rw [chunksOf_length, chunksOf_get?, if_pos hj]
    refine ⟨_, rfl, ?_⟩
    rw [List.length_take, List.length_drop]
    omega

/-- Claim C1 witness at the concrete three-byte image. -/
theorem claim_C1_witness :
    ([some ACK_MSG].take (chunksOf [10, 20, 30]).length
      = List.replicate (chunksOf [10, 20, 30]).length (some ACK_MSG))
  ∧ writePayloads (ackLoop (chunksOf [10, 20, 30]) [some ACK_MSG]).1
      = chunksOf [10, 20, 30]
  ∧ 0 < ([10, 20, 30] : List Nat).length
  ∧ (∃ c, (chunksOf [10, 20, 30]).get? ((chunksOf [10, 20, 30]).length - 1) = some c
      ∧ c.length = ([10, 20, 30] : List Nat).length
          - 256 * ((([10, 20, 30] : List Nat).length - 1) / 256)) := by
  refine ⟨by decide, ?_, by decide, ?_⟩
  · exact (claim_C1 [10, 20, 30]).2.2.2.2.1 [some ACK_MSG] (by decide)
  · exact (claim_C1 [10, 20, 30]).2.2.2.2.2 (by decide)

/-- Claim C4: the checksum of calculateCRC32 equals the reference IEEE
CRC-32 of the full byte sequence; streaming the content through the
accumulator in any partition into blocks, in particular the 256-byte
blocks the source reads, yields the same value as a single pass, and the
checksum of the empty content is the CRC-32 of zero bytes. -/
theorem claim_C4 (content : List Nat) (parts : List (List Nat))
    (hparts : parts.flatten = content) :
    parts.foldl crc32Update 0xFFFFFFFF ^^^ 0xFFFFFFFF = crc32IEEE content
  ∧ calculateCRC32 content = crc32IEEE content
  ∧ calculateCRC32 [] = crc32IEEE [] := by
  refine ⟨?_, calculateCRC32_eq content, calculateCRC32_eq []⟩
  rw [foldl_crc32Update_flatten, hparts]
  rfl

/-- Claim C4 witness at a concrete content and partition. -/
theorem claim_C4_witness :
    ([[1], [], [2, 3]] : List (List Nat)).flatten = [1, 2, 3]
  ∧ ([[1], [], [2, 3]] : List (List Nat)).foldl crc32Update 0xFFFFFFFF ^^^ 0xFFFFFFFF
      = crc32IEEE [1, 2, 3]
  ∧ calculateCRC32 [1, 2, 3] = crc32IEEE [1, 2, 3]
  ∧ calculateCRC32 [] = crc32IEEE [] := by
  have h := claim_C4 [1, 2, 3] [[1], [], [2, 3]] (by decide)
  exact ⟨by decide, h.1, h.2.1, h.2.2⟩

/-- Claim C5: when reading the firmware file fails, or the checksum
computation signals an error, sendFirmware reports the input-stage failure
and produces no events at all: in particular no dial attempt and no write
of any byte. -/
theorem claim_C5 (env : Env)
    (h : env.readFileResult = none ∨ env.crcReadResult = none) :
    ((sendFirmware env).2 = Outcome.fileNotFound
      ∨ (sendFirmware env).2 = Outcome.crcError)
  ∧ (sendFirmware env).1 = []
  ∧ (sendFirmware env).1.countP (fun e => isDialEvent e) = 0
  ∧ writePayloads (sendFirmware env).1 = [] := by
  rcases h with h | h
  · simp [sendFirmware, h, writePayloads]
  · cases hr : env.readFileResult with
    | none => simp [sendFirmware, hr, writePayloads]
    | some data => simp [sendFirmware, hr, h, writePayloads]

/-- Claim C5 witness at a concrete environment with an unreadable file. -/
theorem claim_C5_witness :
    ((sendFirmware ⟨none, none, 0, [], [], none⟩).2 = Outcome.fileNotFound
      ∨ (sendFirmware ⟨none, none, 0, [], [], none⟩).2 = Outcome.crcError)
  ∧ (sendFirmware ⟨none, none, 0, [], [], none⟩).1 = []
  ∧ (sendFirmware ⟨none, none, 0, [], [], none⟩).1.countP (fun e => isDialEvent e) = 0
  ∧ writePayloads (sendFirmware ⟨none, none, 0, [], [], none⟩).1 = [] :=
  claim_C5 ⟨none, none, 0, [], [], none⟩ (Or.inl rfl)

/-- Claim C10: no socket write is error-checked.  The environment records
the transport-level fate of every write in Env.writeOk, and the run is
entirely independent of it; moreover the final outcome is a function of
the read results alone (the two file reads and the two kinds of blocking
socket reads), so transport failure can only surface through a subsequent
read. -/
theorem claim_C10 :
    (∀ (env : Env) (w : List Bool),
      sendFirmware { env with writeOk := w } = sendFirmware env)
  ∧ (∀ e1 e2 : Env, e1.readFileResult = e2.readFileResult →
      e1.crcReadResult = e2.crcReadResult →
      e1.ackResponses = e2.ackResponses →
      e1.crcResponse = e2.crcResponse →
      (sendFirmware e1).2 = (sendFirmware e2).2) := by
  constructor
  · intro env w
    cases env
    rfl
  · intro e1 e2 h1 h2 h3 h4
    cases e1
    cases e2
    simp only at h1 h2 h3 h4
    subst h1; subst h2; subst h3; subst h4
    rename_i rf cr n1 w1 acks crr n2 w2
    cases rf with
    | none => rfl
    | some data =>
      cases cr with
      | none => rfl
      | some c =>
        simp only [sendFirmware]
        cases hb : (ackLoop (chunksOf data) acks).2 <;> simp [hb]

/-- Claim C2: when the first K peer responses are the exact token and the
response to chunk K is a read error or different bytes, the engine writes
chunks 0 to K (each followed by one blocking read of the 3 token bytes),
writes nothing further (no later chunk and no checksum), closes the
connection and reports transmission failure. -/
theorem claim_C2 (env : Env) (data c : List Nat) (K : Nat)
    (hr : env.readFileResult = some data) (hc : env.crcReadResult = some c)
    (hK : K < (chunksOf data).length)
    (hpre : env.ackResponses.take K = List.replicate K (some ACK_MSG))
    (hbad : env.ackResponses.getD K none ≠ some ACK_MSG) :
    ACK_MSG.length = 3
  ∧ sendFirmware env =
      (connectEvents env.dialFailures
        ++ Event.write (be4 data.length)
          :: (((chunksOf data).take K).map pairOk).flatten
        ++ [Event.write ((chunksOf data).getD K []),
            Event.readAck (env.ackResponses.getD K none), Event.close],
       Outcome.transmissionFailed)
  ∧ writePayloads (sendFirmware env).1
      = be4 data.length :: (chunksOf data).take (K + 1) := by
  have hfail := ackLoop_fail K (chunksOf data) env.ackResponses hK hpre hbad
  have htr : sendFirmware env =
      (connectEvents env.dialFailures
        ++ Event.write (be4 data.length)
          :: (((chunksOf data).take K).map pairOk).flatten
        ++ [Event.write ((chunksOf data).getD K []),
            Event.readAck (env.ackResponses.getD K none), Event.close],
       Outcome.transmissionFailed) := by
    rw [sendFirmware_eq env data c hr hc, hfail]
    simp
  refine ⟨rfl, htr, ?_⟩
  rw [htr]
  simp only [writePayloads_append, writePayloads_cons_write, writePayloads_cons_readAck,
    writePayloads_cons_readCrcResp, writePayloads_cons_close, writePayloads_nil,
    writePayloads_connectEvents, writePayloads_pairOk_flatten, List.nil_append,
    List.append_nil]
  rw [take_succ_getD (chunksOf data) K hK]
  simp

set_option maxRecDepth 4000 in
/-- Claim C2 witness: a two-chunk image whose second chunk gets garbage
instead of the token. -/
theorem claim_C2_witness :
    1 < (chunksOf (List.replicate 300 9)).length
  ∧ [some ACK_MSG, some [0, 0, 0]].take 1 = List.replicate 1 (some ACK_MSG)
  ∧ ([some ACK_MSG, some [0, 0, 0]].getD 1 none ≠ some ACK_MSG)
  ∧ sendFirmware ⟨some (List.replicate 300 9), some (List.replicate 300 9), 0, [],
        [some ACK_MSG, some [0, 0, 0]], none⟩ =
      (connectEvents 0
        ++ Event.write (be4 (List.replicate 300 9).length)
          :: (((chunksOf (List.replicate 300 9)).take 1).map pairOk).flatten
        ++ [Event.write ((chunksOf (List.replicate 300 9)).getD 1 []),
            Event.readAck ([some ACK_MSG, some [0, 0, 0]].getD 1 none), Event.close],
       Outcome.transmissionFailed)
  ∧ writePayloads (sendFirmware ⟨some (List.replicate 300 9), some (List.replicate 300 9),
        0, [], [some ACK_MSG, some [0, 0, 0]], none⟩).1
      = be4 (List.replicate 300 9).length :: (chunksOf (List.replicate 300 9)).take 2 := by
  have h := claim_C2 ⟨some (List.replicate 300 9), some (List.replicate 300 9), 0, [],
      [some ACK_MSG, some [0, 0, 0]], none⟩ (List.replicate 300 9) (List.replicate 300 9)
    1 rfl rfl (by decide) (by decide) (by decide)
  exact ⟨by decide, by decide, by decide, h.2.1, h.2.2⟩

/-- Claim C3: when every chunk is acknowledged with the exact token the
engine writes the 4-byte checksum and blocks reading the 6 token bytes;
the full image and the checksum are on the wire and the connection is
closed in both cases, and the outcome is success exactly when the exact
token CRC_OK arrives, checksum-verification failure otherwise. -/
theorem claim_C3 (env : Env) (data c : List Nat)
    (hr : env.readFileResult = some data) (hc : env.crcReadResult = some c)
    (hacks : env.ackResponses.take (chunksOf data).length
      = List.replicate (chunksOf data).length (some ACK_MSG)) :
    CRC_OK_MSG.length = 6
  ∧ sendFirmware env =
      (connectEvents env.dialFailures
        ++ Event.write (be4 data.length)
          :: ((chunksOf data).map pairOk).flatten
        ++ [Event.write (be4 (calculateCRC32 c)),
            Event.readCrcResp env.crcResponse, Event.close],
       if env.crcResponse = some CRC_OK_MSG then Outcome.success
       else Outcome.crcVerifyFailed)
  ∧ writePayloads (sendFirmware env).1
      = be4 data.length :: (chunksOf data ++ [be4 (calculateCRC32 c)])
  ∧ (chunksOf data).flatten = data
  ∧ (env.crcResponse ≠ some CRC_OK_MSG →
      (sendFirmware env).2 = Outcome.crcVerifyFailed)
  ∧ (env.crcResponse = some CRC_OK_MSG → (sendFirmware env).2 = Outcome.success) := by
  have hok := ackLoop_success (chunksOf data) env.ackResponses hacks
  have htr : sendFirmware env =
      (connectEvents env.dialFailures
        ++ Event.write (be4 data.length)
          :: ((chunksOf data).map pairOk).flatten
        ++ [Event.write (be4 (calculateCRC32 c)),
            Event.readCrcResp env.crcResponse, Event.close],
       if env.crcResponse = some CRC_OK_MSG then Outcome.success
       else Outcome.crcVerifyFailed) := by
    rw [sendFirmware_eq env data c hr hc, hok]
    simp
  refine ⟨rfl, htr, ?_, chunksOf_flatten data, ?_, ?_⟩
  · rw [htr]
    simp only [writePayloads_append, writePayloads_cons_write, writePayloads_cons_readAck,
      writePayloads_cons_readCrcResp, writePayloads_cons_close, writePayloads_nil,
      writePayloads_connectEvents, writePayloads_pairOk_flatten, List.nil_append,
      List.append_nil]
    simp
  · intro hne
    rw [htr]
    simp [hne]
  · intro heq
    rw [htr]
    simp [heq]

/-- Claim C3 witness: a one-chunk image fully acknowledged with a wrong
final verification token. -/
theorem claim_C3_witness :
    ([some ACK_MSG].take (chunksOf [7, 8]).length
      = List.replicate (chunksOf [7, 8]).length (some ACK_MSG))
  ∧ writePayloads (sendFirmware ⟨some [7, 8], some [7, 8], 0, [],
        [some ACK_MSG], some [0, 0, 0, 0, 0, 0]⟩).1
      = be4 ([7, 8] : List Nat).length
          :: (chunksOf [7, 8] ++ [be4 (calculateCRC32 [7, 8])])
  ∧ (sendFirmware ⟨some [7, 8], some [7, 8], 0, [],
        [some ACK_MSG], some [0, 0, 0, 0, 0, 0]⟩).2 = Outcome.crcVerifyFailed := by
  have h := claim_C3 ⟨some [7, 8], some [7, 8], 0, [],
      [some ACK_MSG], some [0, 0, 0, 0, 0, 0]⟩ [7, 8] [7, 8] rfl rfl (by decide)
  exact ⟨by decide, h.2.2.1, h.2.2.2.2.1 (by decide)⟩

/-- Claim C6: once both file reads succeed, the very first bytes written
to the connection are the image size as 4 big-endian bytes (value taken
modulo 2 ^ 32, the uint32 conversion), written immediately after the
successful dial and before any chunk, and the event after this write is
another write, never an acknowledgment read. -/
theorem claim_C6 (env : Env) (data c : List Nat)
    (hr : env.readFileResult = some data) (hc : env.crcReadResult = some c) :
    (be4 data.length).length = 4
  ∧ be4Decode (be4 data.length) = data.length % 4294967296
  ∧ (writePayloads (sendFirmware env).1).head? = some (be4 data.length)
  ∧ ∃ rest, (sendFirmware env).1
      = connectEvents env.dialFailures ++ Event.write (be4 data.length) :: rest
    ∧ ∃ p rest2, rest = Event.write p :: rest2 := by
  have hmain : ∃ rest, (sendFirmware env).1
      = connectEvents env.dialFailures ++ Event.write (be4 data.length) :: rest
    ∧ ∃ p rest2, rest = Event.write p :: rest2 := by
    rw [sendFirmware_eq env data c hr hc]
    cases hb : (ackLoop (chunksOf data) env.ackResponses).2 with
    | false =>
      simp only [hb, Bool.false_eq_true, if_false]
      cases hcs : chunksOf data with
      | nil => rw [hcs] at hb; simp [ackLoop] at hb
      | cons ch cs =>
        obtain ⟨t, ht⟩ := ackLoop_cons_shape ch cs env.ackResponses
        rw [ht]
        refine ⟨Event.write ch :: (t ++ [Event.close]), by simp, ch,
          t ++ [Event.close], rfl⟩
    | true =>
      simp only [hb, if_true]
      cases hcs : chunksOf data with
      | nil =>
        refine ⟨[Event.write (be4 (calculateCRC32 c)),
            Event.readCrcResp env.crcResponse, Event.close],
          by simp [ackLoop], be4 (calculateCRC32 c), _, rfl⟩
      | cons ch cs =>
        obtain ⟨t, ht⟩ := ackLoop_cons_shape ch cs env.ackResponses
        rw [ht]
        refine ⟨Event.write ch :: (t ++ [Event.write (be4 (calculateCRC32 c)),
            Event.readCrcResp env.crcResponse, Event.close]), by simp, ch, _, rfl⟩
  obtain ⟨rest, htr, p, rest2, hrest⟩ := hmain
  refine ⟨by simp [be4], by simp [be4, be4Decode]; omega, ?_, rest, htr, p, rest2, hrest⟩
  rw [htr]
  simp only [writePayloads_append, writePayloads_connectEvents, List.nil_append,
    writePayloads_cons_write]
  rfl

/-- Claim C6 witness at a concrete environment. -/
theorem claim_C6_witness :
    (be4 ([5] : List Nat).length).length = 4
  ∧ be4Decode (be4 ([5] : List Nat).length) = ([5] : List Nat).length % 4294967296
  ∧ (writePayloads (sendFirmware ⟨some [5], some [5], 1, [], [], none⟩).1).head?
      = some (be4 ([5] : List Nat).length)
  ∧ ∃ rest, (sendFirmware ⟨some [5], some [5], 1, [], [], none⟩).1
      = connectEvents 1 ++ Event.write (be4 ([5] : List Nat).length) :: rest
    ∧ ∃ p rest2, rest = Event.write p :: rest2 :=
  claim_C6 ⟨some [5], some [5], 1, [], [], none⟩ [5] [5] rfl rfl

/-- Claim C7: with both file reads successful and the first N dial
attempts failing before attempt N + 1 succeeds, the run opens with exactly
N failure-sleep pairs (the fixed 3-second backoff) followed by the one
successful attempt, makes exactly N + 1 dial attempts in total, performs
no further dial attempt afterwards, and proceeds directly to writing the
size header. -/
theorem claim_C7 (env : Env) (data c : List Nat)
    (hr : env.readFileResult = some data) (hc : env.crcReadResult = some c) :
    connectEvents env.dialFailures
      = (List.replicate env.dialFailures [Event.dialFail, Event.sleepSeconds 3]).flatten
        ++ [Event.dialOk]
  ∧ ∃ rest, (sendFirmware env).1 = connectEvents env.dialFailures ++ rest
    ∧ (sendFirmware env).1.countP (fun e => isDialEvent e) = env.dialFailures + 1
    ∧ rest.countP (fun e => isDialEvent e) = 0
    ∧ rest.head? = some (Event.write (be4 data.length)) := by
  refine ⟨connectEvents_eq env.dialFailures, ?_⟩
  have hnodial : ∀ acks, ((ackLoop (chunksOf data) acks).1).countP
      (fun e => isDialEvent e) = 0 := by
    intro acks
    rw [List.countP_eq_zero]
    intro e he
    simp [ackLoop_no_dial (chunksOf data) acks e he]
  rw [sendFirmware_eq env data c hr hc]
  cases hb : (ackLoop (chunksOf data) env.ackResponses).2 with
  | false =>
    simp only [hb, Bool.false_eq_true, if_false]
    refine ⟨(Event.write (be4 data.length)
        :: (ackLoop (chunksOf data) env.ackResponses).1) ++ [Event.close],
      by simp, ?_, ?_, rfl⟩
    · rw [List.countP_append, List.countP_append, connectEvents_countP_dial,
        List.countP_cons_of_neg _ _ (by simp [isDialEvent]), hnodial env.ackResponses]
      simp [List.countP_cons, isDialEvent]
    · rw [List.countP_append,
        List.countP_cons_of_neg _ _ (by simp [isDialEvent]), hnodial env.ackResponses]
      simp [List.countP_cons, isDialEvent]
  | true =>
    simp only [hb, if_true]
    refine ⟨(Event.write (be4 data.length)
        :: (ackLoop (chunksOf data) env.ackResponses).1)
        ++ [Event.write (be4 (calculateCRC32 c)),
            Event.readCrcResp env.crcResponse, Event.close],
      by simp, ?_, ?_, rfl⟩
    · rw [List.countP_append, List.countP_append, connectEvents_countP_dial,
        List.countP_cons_of_neg _ _ (by simp [isDialEvent]), hnodial env.ackResponses]
      simp [List.countP_cons, isDialEvent]
    · rw [List.countP_append,
        List.countP_cons_of_neg _ _ (by simp [isDialEvent]), hnodial env.ackResponses]
      simp [List.countP_cons, isDialEvent]

/-- Claim C7 witness with two failed dial attempts. -/
theorem claim_C7_witness :
    connectEvents 2
      = (List.replicate 2 [Event.dialFail, Event.sleepSeconds 3]).flatten
        ++ [Event.dialOk]
  ∧ ∃ rest, (sendFirmware ⟨some [9], some [9], 2, [], [some ACK_MSG],
        some CRC_OK_MSG⟩).1 = connectEvents 2 ++ rest
    ∧ (sendFirmware ⟨some [9], some [9], 2, [], [some ACK_MSG],
        some CRC_OK_MSG⟩).1.countP (fun e => isDialEvent e) = 2 + 1
    ∧ rest.countP (fun e => isDialEvent e) = 0
    ∧ rest.head? = some (Event.write (be4 ([9] : List Nat).length)) :=
  claim_C7 ⟨some [9], some [9], 2, [], [some ACK_MSG], some CRC_OK_MSG⟩ [9] [9] rfl rfl

/-- Claim C8: the CLI never hands an invalid destination address to the
transfer core (the only constructor that performs checksum computation or
any network activity), and with three arguments where the second is not
the version flag an invalid address makes the program exit with the
invalid-address rejection. -/
theorem claim_C8 (args : List String)
    (hbad : isValidIP (args.getD 2 "") = false) :
    (∀ f ip, mainModel args ≠ CLIResult.transferInvoked f ip)
  ∧ (3 ≤ args.length → args.getD 1 "" ≠ "version" → args.getD 1 "" ≠ "-v" →
      mainModel args = CLIResult.invalidIPExit) := by
  constructor
  · intro f ip hcontra
    simp only [mainModel] at hcontra
    split at hcontra
    · exact absurd hcontra (by simp)
    · split at hcontra
      · exact absurd hcontra (by simp)
      · split at hcontra
        · exact absurd hcontra (by simp)
        · split at hcontra
          · rename_i hvalid
            rw [hbad] at hvalid
            exact absurd hvalid (by simp)
          · exact absurd hcontra (by simp)
  · intro hlen hv1 hv2
    simp only [mainModel]
    rw [if_neg (by omega), if_neg (fun hor => Or.elim hor hv1 hv2), if_neg (by omega),
      if_neg (by rw [hbad]; simp)]

/-- Claim C8 witness at the malformed address 999.1.1.1. -/
theorem claim_C8_witness :
    isValidIP (["gboot", "fw.bin", "999.1.1.1"].getD 2 "") = false
  ∧ mainModel ["gboot", "fw.bin", "999.1.1.1"]
      ≠ CLIResult.transferInvoked "fw.bin" "999.1.1.1"
  ∧ mainModel ["gboot", "fw.bin", "999.1.1.1"] = CLIResult.invalidIPExit := by
  have h := claim_C8 ["gboot", "fw.bin", "999.1.1.1"] (by decide)
  exact ⟨by decide, h.1 "fw.bin" "999.1.1.1",
    h.2 (by decide) (by decide) (by decide)⟩

/-- Claim C9: the transmitted checksum is computed from the second,
independent read of the firmware path; when that read observes the same
content as the image read, the checksum written in the trailer is exactly
the IEEE CRC-32 of the concatenated chunk payloads, and there is an
execution in which the two reads disagree and the transmitted checksum
differs from the CRC-32 of the concatenated chunk payloads. -/
theorem claim_C9 :
    (∀ (env : Env) (data c : List Nat),
      env.readFileResult = some data → env.crcReadResult = some c →
      env.ackResponses.take (chunksOf data).length
        = List.replicate (chunksOf data).length (some ACK_MSG) →
      c = data →
      (writePayloads (sendFirmware env).1).getLast?
        = some (be4 (crc32IEEE ((chunksOf data).flatten))))
  ∧ (∃ env : Env, ∃ data c : List Nat,
      env.readFileResult = some data ∧ env.crcReadResult = some c
      ∧ env.ackResponses.take (chunksOf data).length
          = List.replicate (chunksOf data).length (some ACK_MSG)
      ∧ c ≠ data
      ∧ (writePayloads (sendFirmware env).1).getLast?
          ≠ some (be4 (crc32IEEE ((chunksOf data).flatten)))) := by
  constructor
  · intro env data c hr hc hacks hcd
    have hok := ackLoop_success (chunksOf data) env.ackResponses hacks
    have htr := sendFirmware_eq env data c hr hc
    rw [hok] at htr
    simp only [if_true] at htr
    rw [htr]
    simp only [writePayloads_append, writePayloads_cons_write, writePayloads_cons_readAck,
      writePayloads_cons_readCrcResp, writePayloads_cons_close, writePayloads_nil,
      writePayloads_connectEvents, writePayloads_pairOk_flatten, List.nil_append,
      List.append_nil]
    rw [List.getLast?_concat, calculateCRC32_eq, hcd, chunksOf_flatten]
  · refine ⟨⟨some [0], some [], 0, [], [some ACK_MSG], some CRC_OK_MSG⟩,
      [0], [], rfl, rfl, by decide, by decide, by decide⟩

/-- Claim C9 witness: both reads observe the same one-byte content. -/
theorem claim_C9_witness :
    ([some ACK_MSG].take (chunksOf [42]).length
      = List.replicate (chunksOf [42]).length (some ACK_MSG))
  ∧ (writePayloads (sendFirmware ⟨some [42], some [42], 0, [],
        [some ACK_MSG], some CRC_OK_MSG⟩).1).getLast?
      = some (be4 (crc32IEEE ((chunksOf [42]).flatten))) := by
  refine ⟨by decide, ?_⟩
  exact claim_C9.1 ⟨some [42], some [42], 0, [], [some ACK_MSG], some CRC_OK_MSG⟩
    [42] [42] rfl rfl (by decide) rfl

/-- Claim C10 witness at two concrete environments differing only in
write fates and dial failures. -/
theorem claim_C10_witness :
    sendFirmware { (⟨some [1], some [1], 0, [], [some ACK_MSG], some CRC_OK_MSG⟩ : Env)
        with writeOk := [false, false] }
      = sendFirmware ⟨some [1], some [1], 0, [], [some ACK_MSG], some CRC_OK_MSG⟩
  ∧ (sendFirmware ⟨some [1], some [1], 0, [], [some ACK_MSG], some CRC_OK_MSG⟩).2
      = (sendFirmware ⟨some [1], some [1], 5, [true], [some ACK_MSG], some CRC_OK_MSG⟩).2 :=
  ⟨claim_C10.1 ⟨some [1], some [1], 0, [], [some ACK_MSG], some CRC_OK_MSG⟩ [false, false],
   claim_C10.2 ⟨some [1], some [1], 0, [], [some ACK_MSG], some CRC_OK_MSG⟩
     ⟨some [1], some [1], 5, [true], [some ACK_MSG], some CRC_OK_MSG⟩ rfl rfl rfl rfl⟩

end GBoot
